import Mathlib

/-!
Verification of the analytics-zoo/pytorch-serve backend worker and model
archiver against its natural-language specification.

The development shallowly embeds the relevant parts of three source files:
  * `src/ts/model_service_worker.py`   (worker protocol engine)
  * `src/ts/model_loader.py`           (handler resolver)
  * `src/model-archiver/model_archiver/model_packaging_utils.py` (archive builder)

Byte strings are `List (Fin 256)`; Python strings are Lean `String`s;
fallible Python code is embedded with `Except`/`Option`, with a dedicated
error constructor per distinct Python exception site.
-/

namespace PytorchServe

/-! ## Worker protocol engine (`src/ts/model_service_worker.py`)

`TorchModelServiceWorker.handle_connection` keeps a local `service`
variable (initially `None`) and loops over framed commands.  The body of
`load_model` performs file I/O, optional decryption and handler loading;
its *outcome* is what `handle_connection` branches on, so the embedding
parameterises each `L` command by that outcome:

  * the body succeeds: `load_model` returns `(service, "loaded model <name>", 200)`;
  * the body raises `MemoryError`: the one caught exception, giving
    `(None, "System out of memory", 507)` (lines 186-187);
  * the body raises anything else: `load_model` catches only `MemoryError`,
    so the exception propagates out of `load_model` and out of
    `handle_connection`.
-/

/-- The live service object inside the worker.  Modelled from the spec:
`ts.service.Service` is not under `src/`; the spec describes it as exposing
a single `predict` entry point mapping request bytes to response bytes. -/
structure RunningService where
  predictFn : List (Fin 256) → List (Fin 256)

/-- Outcome of executing the body of `load_model` (everything before its
`except MemoryError` clause): success with a loaded service, a
`MemoryError`, or any other exception. -/
inductive LoadBodyOutcome where
  | ok (svc : RunningService) (model_name : String)
  | memoryError
  | otherException

/-- Exceptions that can escape `handle_connection`. -/
inductive WorkerExc where
  | attributeError                         -- `None.predict(...)`
  | runtimeError (code : Nat) (msg : String)  -- `raise RuntimeError("{} - {}")` (line 213)
  | valueErrorUnknownCmd (tag : String)    -- `raise ValueError(...)` (line 215)
  | uncaught                               -- exception propagating through `load_model`
deriving DecidableEq

/-- Bytes written back on the client socket. -/
inductive Resp where
  | predictResp (payload : List (Fin 256))        -- `cl_socket.sendall(resp)` (line 206)
  | loadResp (code : Nat) (msg : String)          -- `create_load_model_response` (line 210)
deriving DecidableEq

/-- How the command loop of `handle_connection` ends on a given finite
input: either the input list is exhausted (the Python loop would block on
the next `retrieve_msg`) or an exception was raised. -/
inductive ConnExit where
  | inputExhausted
  | raised (e : WorkerExc)
deriving DecidableEq

/-- A framed command as read by `retrieve_msg`: tag `I` (Predict) with an
opaque payload, tag `L` (Load) whose embedded field set is summarised by
the outcome of running `load_model` on it, or any other tag. -/
inductive Cmd where
  | I (payload : List (Fin 256))
  | L (outcome : LoadBodyOutcome)
  | other (tag : String)

/-- `TorchModelServiceWorker.load_model` (lines 97-187): the body outcome
is mapped to the function's result; only `MemoryError` is caught. -/
def load_model : LoadBodyOutcome →
    Except WorkerExc (Option RunningService × String × Nat)
  | .ok svc name => .ok (some svc, "loaded model " ++ name, 200)
  | .memoryError => .ok (none, "System out of memory", 507)
  | .otherException => .error .uncaught

/-- `TorchModelServiceWorker.handle_connection` (lines 189-215) on a finite
list of incoming commands: returns the responses written to the socket, in
order, and how the loop ended. -/
def handle_connection (service : Option RunningService) :
    List Cmd → List Resp × ConnExit
  | [] => ([], .inputExhausted)
  | .I payload :: rest =>
    match service with
    | none => ([], .raised .attributeError)
    | some s =>
      let r := handle_connection (some s) rest
      (.predictResp (s.predictFn payload) :: r.1, r.2)
  | .L outcome :: rest =>
    match load_model outcome with
    | .error e => ([], .raised e)
    | .ok (svc, result, code) =>
      if code ≠ 200 then
        ([.loadResp code result], .raised (.runtimeError code result))
      else
        let r := handle_connection svc rest
        (.loadResp code result :: r.1, r.2)
  | .other tag :: _ => ([], .raised (.valueErrorUnknownCmd tag))

end PytorchServe

namespace PytorchServe

/-! ## Handler resolver (`src/ts/model_loader.py`)

`TsModelLoader.load` receives the model directory either as an in-memory
`dict` (file name → byte buffer) or as a filesystem directory path.  The
embedding keeps of each shape exactly what `load` inspects: the key set of
the dict, and, for the filesystem case, whether `MAR-INF/MANIFEST.json`
exists.  Python modules are abstracted to what `load` observes of them:
the attribute names (`hasattr`) and the class definitions returned by
`list_classes_from_module`. -/

/-- A class definition found in a handler module, with whether an instance
of it exposes a `handle` attribute. -/
structure PyClass where
  name : String
  hasHandle : Bool
deriving DecidableEq

/-- What `TsModelLoader.load` observes of a loaded Python module.
`classes` is the result of `list_classes_from_module` (defined in
`ts/utils/util.py`, not under `src/`); modelled from the spec: it returns
the module's eligible class definitions. -/
structure PyModule where
  attrs : List String
  classes : List PyClass
deriving DecidableEq

/-- The model directory argument of `TsModelLoader.load`: an in-memory
file map (only its key set is inspected here) or a filesystem directory
(only the existence of `MAR-INF/MANIFEST.json` is inspected here). -/
inductive ModelDir where
  | dict (files : List String)
  | fs (manifestPresent : Bool)

/-- Exceptions raised by `TsModelLoader.load`. -/
inductive LoadError where
  | keyError (key : String)        -- `model_dir[...]` on a missing key
  | importError                    -- module not importable; the `except ImportError`
                                   -- branch re-runs the same loader, which fails
                                   -- identically, so the error propagates
  | classCountError (n : Nat)      -- "Expected only one class ..." (lines 218-223)
  | missingHandle (className : String)  -- "Expect handle method in class ..." (lines 228-231)
deriving DecidableEq

/-- A resolved handler entry point: a module-level function, the `handle`
method of the single eligible class instance, or either of those wrapped
by a named request envelope (`_load_default_envelope`, whose builtin
envelope modules live outside `src/`). -/
inductive EntryPoint where
  | func (name : String)
  | classHandle (className : String)
  | envelopeWrapped (envName : String) (inner : EntryPoint)
deriving DecidableEq

/-- The observable fields of the `Service` object `TsModelLoader.load`
returns (its `ts.service.Service` constructor is outside `src/`): the
model name, the manifest (present or `None`), and the entry point. -/
structure LService where
  model_name : String
  manifest : Option Unit
  entry_point : EntryPoint
deriving DecidableEq

/-- Split a character list at the first occurrence of `sep`, if any. -/
def splitFirst (sep : Char) : List Char → Option (List Char × List Char)
  | [] => none
  | c :: cs =>
    if c = sep then some ([], cs)
    else
      match splitFirst sep cs with
      | some (l, r) => some (c :: l, r)
      | none => none

/-- Split a character list at every occurrence of `sep` (Python
`str.split(sep)` on a nonempty separator: always returns at least one,
possibly empty, segment). -/
def splitAllOn (sep : Char) : List Char → List (List Char)
  | [] => [[]]
  | c :: cs =>
    let r := splitAllOn sep cs
    if c = sep then [] :: r
    else
      match r with
      | [] => [[c]]
      | h :: t => (c :: h) :: t

/-- `handler.split(":", 1)`: the module part and the optional entry name. -/
def split_once_colon (s : String) : String × Option String :=
  match splitFirst ':' s.data with
  | some (l, r) => (⟨l⟩, some ⟨r⟩)
  | none => (s, none)

/-- `if module_name.endswith(".py"): module_name = module_name[:-3]`. -/
def strip_py_suffix (m : String) : String :=
  if [ '.', 'p', 'y'].isSuffixOf m.data then ⟨m.data.take (m.data.length - 3)⟩
  else m

/-- `module_name.split("/")[-1]`. -/
def last_path_segment (m : String) : String :=
  ⟨(splitAllOn '/' m.data).getLastD m.data⟩

/-- The module name `_load_handler_file` / `_load_handler_buf` import:
the part before `":"`, with a `.py` suffix stripped and any directory
prefix dropped (lines 174-179 and 189-193). -/
def module_name_of (handler : String) : String :=
  last_path_segment (strip_py_suffix (split_once_colon handler).1)

/-- The optional entry name after `":"` in the handler reference. -/
def entry_name_of (handler : String) : Option String :=
  (split_once_colon handler).2

/-- The manifest step of `TsModelLoader.load` (lines 99-107): the dict
shape indexes `model_dir['MAR-INF/MANIFEST.json']` (a missing key is a
`KeyError`), the filesystem shape tests `os.path.exists` and falls back
to `manifest = None`. -/
def manifest_of : ModelDir → Except LoadError (Option Unit)
  | .dict files =>
    if "MAR-INF/MANIFEST.json" ∈ files then .ok (some ())
    else .error (.keyError "MAR-INF/MANIFEST.json")
  | .fs manifestPresent => .ok (if manifestPresent then some () else none)

/-- The module-loading step of `TsModelLoader.load` (lines 109-119).  The
dict shape first indexes `model_dir[handler]` (raw handler string,
`KeyError` if absent); then both shapes import the module named
`module_name_of handler`, here looked up in the abstract module
environment `env` (the embedding of `importlib` / `exec`). -/
def load_module (env : String → Option PyModule) :
    ModelDir → String → Except LoadError PyModule
  | .dict files, handler =>
    if handler ∈ files then
      match env (module_name_of handler) with
      | some m => .ok m
      | none => .error .importError
    else .error (.keyError handler)
  | .fs _, handler =>
    match env (module_name_of handler) with
    | some m => .ok m
    | none => .error .importError

/-- `TsModelLoader._get_class_entry_point` (lines 216-233): exactly one
class from `list_classes_from_module`, whose instance must expose
`handle`; its `initialize` is the instance's own, invoked by `load`. -/
def get_class_entry_point (m : PyModule) : Except LoadError EntryPoint :=
  match m.classes with
  | [c] =>
    if c.hasHandle then .ok (.classHandle c.name)
    else .error (.missingHandle c.name)
  | cs => .error (.classCountError cs.length)

/-- `TsModelLoader.load` (lines 67-171).  Notes on fidelity:
lines 130-141 build a `Service` that is immediately overwritten at line
159, so they have no observable effect; `initialize_fn(service.context)`
(line 169) is a side effect on the handler outside this model; the
envelope pass (lines 143-157) wraps the entry point with the named
builtin envelope. -/
def TsModelLoader.load (env : String → Option PyModule) (model_name : String)
    (model_dir : ModelDir) (handler : String) (envelope : Option String) :
    Except LoadError LService := do
  let manifest ← manifest_of model_dir
  let module ← load_module env model_dir handler
  -- lines 127-128: `if function_name is None: function_name = "handle"`
  let function_name := (entry_name_of handler).getD "handle"
  -- line 147: `function_name = function_name or "handle"` (empty string is falsy)
  let function_name := if function_name = "" then "handle" else function_name
  let entry_point ←
    if function_name ∈ module.attrs then
      .ok (EntryPoint.func function_name)   -- `_get_function_entry_point` (lines 211-214)
    else
      get_class_entry_point module
  let entry_point :=
    match envelope with
    | some e => EntryPoint.envelopeWrapped e entry_point
    | none => entry_point
  .ok ⟨model_name, manifest, entry_point⟩

/-! ## Archive builder
(`src/model-archiver/model_archiver/model_packaging_utils.py`) -/

/-- `b.startswith("/")` on the path data (used to embed `os.path.join`). -/
def starts_with_slash (b : String) : Bool :=
  match b.data with
  | c :: _ => c == '/'
  | [] => false

/-- Whether `a` ends with the path separator. -/
def ends_with_slash (a : String) : Bool :=
  match a.data.getLast? with
  | some c => c == '/'
  | none => false

/-- POSIX `os.path.join(a, b)`: an absolute `b` replaces `a`; otherwise a
separator is inserted unless `a` is empty or already ends with one. -/
def path_join (a b : String) : String :=
  if starts_with_slash b then b
  else if a.data.isEmpty || ends_with_slash a then a ++ b
  else a ++ "/" ++ b

/-- `archiving_options = {"tgz": ".tar.gz", "no-archive": "", "default": ".mar"}`
read through `dict.get` (line 26): unknown tags give `None`. -/
def archiving_options (archive_format : String) : Option String :=
  if archive_format = "tgz" then some ".tar.gz"
  else if archive_format = "no-archive" then some ""
  else if archive_format = "default" then some ".mar"
  else none

/-- Python `"{}".format(x)` on an optional string: `None` formats as the
four-character string `"None"`. -/
def py_format_opt : Option String → String
  | some s => s
  | none => "None"

/-- `ModelExportUtils.get_archive_export_path` (lines 49-54):
`os.path.join(export_file_path, "{}{}".format(model_name, archiving_options.get(archive_format)))`. -/
def get_archive_export_path (export_file_path model_name archive_format : String) :
    String :=
  path_join export_file_path
    (model_name ++ py_format_opt (archiving_options archive_format))

/-- The `ext` map as the spec words it (claim C6): `tgz → ".tar.gz"`,
directory format → `""`, every other (default) format → `".mar"`.  This
definition follows the spec, not the source, for comparison with
`get_archive_export_path`. -/
def specExt (archive_format : String) : String :=
  if archive_format = "tgz" then ".tar.gz"
  else if archive_format = "no-archive" then ""
  else ".mar"

/-- `re.match(r"^[A-Za-z0-9][A-Za-z0-9_\-.]*$", model_name)` of
`ModelExportUtils.check_model_name_regex_or_exit` (lines 382-395): one
ASCII letter or digit, then letters, digits, `_`, `-` or `.`.
(The `re` corner where `$` also matches before a trailing newline is not
modelled.) -/
def is_ident_head (c : Char) : Bool := c.isAlpha || c.isDigit

/-- A tail character of the model-name pattern. -/
def is_ident_tail (c : Char) : Bool :=
  is_ident_head c || c == '_' || c == '-' || c == '.'

/-- Whether `model_name` matches the archiver's model-name pattern. -/
def check_model_name (model_name : String) : Bool :=
  match model_name.data with
  | [] => false
  | c :: cs => is_ident_head c && cs.all is_ident_tail

/-- What a path names on the filesystem when `copy_artifacts` stages it:
an existing single file, an existing directory, or neither. -/
inductive PathKind where
  | file
  | dir
  | neither
deriving DecidableEq

/-- Exceptions raised by the `encrypted_files` branch of
`copy_artifacts`. -/
inductive CopyError where
  | nameError                      -- the misspelled `encrpyted_path` is undefined
  | invalidArtifact (f : String)   -- `raise ValueError(f"Invalid extra file given {file}")`
deriving DecidableEq

/-- A staging copy performed by the `encrypted_files` branch. -/
inductive CopyAction where
  | copyFileToEncrypted (src : String)   -- `shutil.copy2(file, encrypted_path)`
deriving DecidableEq

/-- Python `path.split(",")` on the comma-separated artifact list. -/
def split_commas (path : String) : List String :=
  (splitAllOn ',' path.data).map (fun l => ⟨l⟩)

/-- The `encrypted_files` branch of `ModelExportUtils.copy_artifacts`
(lines 183-197), for one `encrypted_files` keyword value.  `fs` reports
what each comma-separated path names.  For an existing single file the
artifact is copied into the encrypted staging subdirectory.  For an
existing directory other than the staging root, Python evaluates the
condition `file != encrpyted_path` — a misspelling of `encrypted_path`
that is not defined anywhere — and raises `NameError` before copying
anything.  A path that is neither (or a directory equal to the staging
root, for which the `elif` is false) raises the invalid-artifact
`ValueError`. -/
def copy_encrypted_files (fs : String → PathKind) (model_path : String)
    (path : String) : Except CopyError (List CopyAction) :=
  (split_commas path).foldlM
    (fun acc file =>
      match fs file with
      | .file => .ok (acc ++ [.copyFileToEncrypted file])
      | .dir =>
        if file = model_path then .error (.invalidArtifact file)
        else .error .nameError
      | .neither => .error (.invalidArtifact file))
    []

/-- An example filesystem for the C8 failing input: `weights.bin` is an
existing file and `extra_dir` an existing directory. -/
def c8Fs : String → PathKind :=
  fun p =>
    if p = "weights.bin" then .file
    else if p = "extra_dir" then .dir
    else .neither

/-- The destination `archive` writes into: an in-memory `io.BytesIO`
buffer (chosen when whole-archive encryption is requested, line 221) or a
filesystem path. -/
inductive Dest where
  | buffer
  | fspath (p : String)

/-- Exceptions raised by `ModelExportUtils.archive`. -/
inductive ArchiveError where
  | typeError     -- a path operation applied to an in-memory buffer
deriving DecidableEq

/-- Filesystem writes `archive` performs. -/
inductive ArchiveWrite where
  | fileWrite (path : String) (encrypted : Bool)  -- final artifact written to disk
  | copyInto (src : String) (dstDir : String)     -- `shutil.copy` in no-archive mode
deriving DecidableEq

/-- `os.path.join` with the destination as first argument: a `BytesIO`
buffer is not path-like, so CPython raises `TypeError`. -/
def dest_join : Dest → String → Except ArchiveError String
  | .buffer, _ => .error .typeError
  | .fspath p, s => .ok (path_join p s)

/-- `os.path.dirname`: everything before the last separator. -/
def path_dirname (p : String) : String :=
  ⟨(splitAllOn '/' p.data).dropLast.map (fun seg => seg ++ [ '/']) |>.flatten.dropLast⟩

/-- `model_path != mar_path` (line 240): a `str` compares equal to the
destination only when the destination is a filesystem path with the same
text; it never equals a `BytesIO` buffer. -/
def dest_eq_str (d : Dest) (s : String) : Bool :=
  match d with
  | .fspath p => p == s
  | .buffer => false

/-- The no-archive branch of `ModelExportUtils.archive_dir` (lines
338-343): for each walked file, compute
`dst_dir = os.path.dirname(os.path.join(dst, relpath))`, create it and
`shutil.copy` the file there.  When `dst` is an in-memory buffer the join
raises `TypeError` before the first copy. -/
def archive_dir_no_archive (dst : Dest) (rel_files : List String) :
    Except ArchiveError (List ArchiveWrite) :=
  rel_files.foldlM
    (fun acc f => do
      let d ← dest_join dst f
      .ok (acc ++ [.copyInto f (path_dirname d)]))
    []

/-- `MAR_INF` (line 40). -/
def MAR_INF : String := "MAR-INF"

/-- `MANIFEST_FILE_NAME` (line 39). -/
def MANIFEST_FILE_NAME : String := "MANIFEST.json"

/-- `ModelExportUtils.archive` (lines 204-287), with the per-file
tar/zip serialization abstracted to the destination writes it produces.
`rel_files` are the staging-relative paths `os.walk` yields after the
directory filter.  Notes on fidelity: with encryption requested the
destination is an in-memory buffer (line 221); `tarfile.open` requires a
path-like name, so the tgz branch on a buffer raises `TypeError`;
`zipfile.ZipFile` accepts both a buffer and a path; in the no-archive
branch `model_path != mar_path` is always true when `mar_path` is a
buffer (a `str` never equals a `BytesIO`), so `archive_dir` runs; the
final encryption block (lines 259-276) re-resolves the export path and
writes the ciphertext there. -/
def ModelExportUtils.archive (export_file model_name model_path : String)
    (rel_files : List String) (archive_format : String)
    (model_encryption : Bool) (has_encryption_key : Bool) :
    Except ArchiveError (List ArchiveWrite) := do
  let mar_path : Dest :=
    if model_encryption then .buffer
    else .fspath (get_archive_export_path export_file model_name archive_format)
  let writes ←
    if archive_format = "tgz" then
      match mar_path with
      | .buffer => .error .typeError
      | .fspath p => .ok [ArchiveWrite.fileWrite p false]
    else if archive_format = "no-archive" then do
      let copies ←
        if dest_eq_str mar_path model_path then .ok []
        else archive_dir_no_archive mar_path rel_files
      let manifest_dir ← dest_join mar_path MAR_INF
      .ok (copies ++
        [ArchiveWrite.fileWrite (path_join manifest_dir MANIFEST_FILE_NAME) false])
    else
      match mar_path with
      | .buffer => .ok []
      | .fspath p => .ok [ArchiveWrite.fileWrite p false]
  if model_encryption ∧ has_encryption_key ∧ archive_format ≠ "no-archive" then
    .ok (writes ++
      [ArchiveWrite.fileWrite
        (get_archive_export_path export_file model_name archive_format) true])
  else
    .ok writes

/-! ## Registration retry loop (`src/ts/model_service_worker.py`, lines 238-248)

The inner `while True` of `run_server` performs an HTTP `PUT` to the
frontend, falls back once to HTTPS when the HTTP status is not 2xx, and
on `requests.exceptions.ConnectionError` from either call sleeps 30
seconds and retries; any completed attempt `break`s out to the
`accept`.  The loop is embedded as a function of the finite trace of
outcomes of the network calls. -/

/-- Outcome of one `requests.put` call: a raised
`requests.exceptions.ConnectionError`, or a returned response with a
status code. -/
inductive RegOutcome where
  | connErr
  | status (s : Nat)
deriving DecidableEq

/-- One loop iteration's two possible outbound calls; the `https` call is
consulted only when the `http` call returns a non-2xx status. -/
structure RegAttempt where
  http : RegOutcome
  https : RegOutcome
deriving DecidableEq

/-- Whether the iteration lands in the `except ConnectionError` handler
(which prints and sleeps 30 seconds before retrying). -/
def attempt_retries (a : RegAttempt) : Bool :=
  match a.http with
  | .connErr => true
  | .status s =>
    if s < 200 || 300 ≤ s then
      match a.https with
      | .connErr => true
      | .status _ => false
    else false

/-- The final response status when the iteration reaches `break`. -/
def attempt_exit_status (a : RegAttempt) : Option Nat :=
  match a.http with
  | .connErr => none
  | .status s =>
    if s < 200 || 300 ≤ s then
      match a.https with
      | .connErr => none
      | .status s2 => some s2
    else some s

/-- The registration loop on a finite trace of attempts: `some (w, s)`
when the loop breaks within the trace after sleeping `w` seconds in
total, with `s` the status code of the last completed call; `none` when
the whole trace is consumed retrying (the worker has still not reached
`accept`).  Each handled `ConnectionError` contributes `time.sleep(30)`. -/
def register_loop : List RegAttempt → Option (Nat × Nat)
  | [] => none
  | a :: rest =>
    match a.http with
    | .connErr => (register_loop rest).map (fun r => (30 + r.1, r.2))
    | .status s =>
      if s < 200 || 300 ≤ s then
        match a.https with
        | .connErr => (register_loop rest).map (fun r => (30 + r.1, r.2))
        | .status s2 => some (0, s2)
      else some (0, s)

/-! ## Encryption codec

The archiver's whole-archive encryption (`model_packaging_utils.archive`,
lines 259-276) runs `padding.PKCS7(128).padder()` and then AES-ECB with
the key file's bytes; the worker's `load_model` decryption (lines
145-154) runs AES-ECB decryption and `padding.PKCS7(128).unpadder()`.
The AES core lives in the external `cryptography` library; it enters the
model as a per-block function (the key's block permutation), while the
padding and the ECB block layout — the code under `src/` — are embedded
in full. -/

/-- `padding.PKCS7(128).padder()`: append `p = 16 - len % 16` copies of
the byte `p` (a full extra block when the length is already a
multiple). -/
def pkcs7_pad (x : List (Fin 256)) : List (Fin 256)  :=
  x ++ List.replicate (16 - x.length % 16) ⟨16 - x.length % 16, by omega⟩

/-- `padding.PKCS7(128).unpadder()`: the data must be a nonzero multiple
of the block size, the final byte `p` must lie in `[1, 16]`, and the last
`p` bytes must all equal `p`; any violation raises the padding
`ValueError` (the spec's `IntegrityError`), modelled as `none`. -/
def pkcs7_unpad (y : List (Fin 256)) : Option (List (Fin 256)) :=
  if y.length = 0 ∨ y.length % 16 ≠ 0 then none
  else
    match y.getLast? with
    | none => none
    | some p =>
      if 1 ≤ p.val ∧ p.val ≤ 16 ∧ (y.drop (y.length - p.val)).all (fun c => c == p)
      then some (y.take (y.length - p.val))
      else none

/-- ECB block layout, fuel-indexed so that it is structurally recursive:
apply `f` to successive 16-byte blocks and concatenate.  The fuel is an
upper bound on the input length; each step consumes at least one
element. -/
def ecbAux (f : List (Fin 256) → List (Fin 256)) :
    Nat → List (Fin 256) → List (Fin 256)
  | _, [] => []
  | 0, _ :: _ => []
  | fuel + 1, c :: cs =>
    f ((c :: cs).take 16) ++ ecbAux f fuel ((c :: cs).drop 16)

/-- ECB mode over a per-block function: no IV and no chaining, each
16-byte block transformed independently. -/
def ecb (f : List (Fin 256) → List (Fin 256)) (data : List (Fin 256)) :
    List (Fin 256) :=
  ecbAux f data.length data

/-- The archiver's whole-archive encryption path: PKCS#7 pad, then
AES-ECB with the key's block permutation `e`
(`padder.update(plain_text) + padder.finalize()`,
`encryptor.update(padded_data) + encryptor.finalize()`). -/
def archive_encrypt (e : List (Fin 256) → List (Fin 256))
    (x : List (Fin 256)) : List (Fin 256) :=
  ecb e (pkcs7_pad x)

/-- The worker's `load_model` decryption path: AES-ECB with the key's
inverse block permutation `d`, then PKCS#7 unpad
(`unpadder.update(decryptor.update(model) + decryptor.finalize()) +
unpadder.finalize()`). -/
def worker_decrypt (d : List (Fin 256) → List (Fin 256))
    (y : List (Fin 256)) : Option (List (Fin 256)) :=
  pkcs7_unpad (ecb d y)

/-- A handler module exposing a module-level `handle` attribute *and* two
eligible class definitions. -/
def c2Module : PyModule :=
  ⟨["handle"], [⟨"ClassA", true⟩, ⟨"ClassB", true⟩]⟩

/-- A module environment defining exactly the module `mymod`. -/
def c2Env : String → Option PyModule :=
  fun n => if n = "mymod" then some c2Module else none

end PytorchServe

namespace PytorchServe

/-- C2, counterexample.  The handler reference `"mymod"` carries no entry
name and the module exposes two eligible classes, so the claim demands a
`ResolutionError`; but the module also has a module-level `handle`
attribute, and `load` defaults the missing entry name to `"handle"`,
finds it with `hasattr`, and resolves a function entry point without ever
scanning the classes. -/
theorem c2_two_classes_no_scan_counterexample :
    TsModelLoader.load c2Env "m1" (.fs true) "mymod" none =
      .ok ⟨"m1", some (), .func "handle"⟩ ∧
    c2Module.classes.length = 2 := by
  exact ⟨rfl, rfl⟩

/-- C2, amended.  For a handler reference with no entry name, the resolver
first defaults the entry name to `handle` and uses a module-level `handle`
attribute as a function entry point when present; only when the module has
no `handle` attribute is it scanned for exactly one eligible class, and a
class count different from one is a resolution error. -/
theorem c2_class_scan_amended (env : String → Option PyModule)
    (model_name handler : String) (mp : Bool) (m : PyModule)
    (henv : env (module_name_of handler) = some m)
    (hnoentry : entry_name_of handler = none)
    (hnohandle : "handle" ∉ m.attrs) :
    (∀ c, m.classes = [c] → c.hasHandle = true →
      TsModelLoader.load env model_name (.fs mp) handler none =
        .ok ⟨model_name, if mp then some () else none, .classHandle c.name⟩) ∧
    (m.classes.length ≠ 1 →
      TsModelLoader.load env model_name (.fs mp) handler none =
        .error (.classCountError m.classes.length)) := by
  constructor
  · intro c hc hh
    simp [TsModelLoader.load, manifest_of, load_module, henv, hnoentry,
      hnohandle, get_class_entry_point, hc, hh, bind, Except.bind]
  · intro hlen
    cases hm : m.classes with
    | nil =>
      simp [TsModelLoader.load, manifest_of, load_module, henv, hnoentry,
        hnohandle, get_class_entry_point, hm, bind, Except.bind]
    | cons c cs =>
      cases cs with
      | nil => exact absurd (by simp [hm]) hlen
      | cons c' cs' =>
        simp [TsModelLoader.load, manifest_of, load_module, henv, hnoentry,
          hnohandle, get_class_entry_point, hm, bind, Except.bind]

/-- C2, witness for the amended theorem at concrete inputs. -/
theorem c2_class_scan_amended_witness :
    TsModelLoader.load
        (fun n => if n = "solo" then some ⟨[], [⟨"OnlyClass", true⟩]⟩ else none)
        "m2" (.fs true) "solo" none =
      .ok ⟨"m2", some (), .classHandle "OnlyClass"⟩ ∧
    TsModelLoader.load
        (fun n => if n = "duo" then some ⟨[], [⟨"A", true⟩, ⟨"B", true⟩]⟩ else none)
        "m3" (.fs false) "duo" none =
      .error (.classCountError 2) := by
  constructor
  · exact (c2_class_scan_amended
      (fun n => if n = "solo" then some ⟨[], [⟨"OnlyClass", true⟩]⟩ else none)
      "m2" "solo" true ⟨[], [⟨"OnlyClass", true⟩]⟩ (by decide) (by decide)
      (by decide)).1 ⟨"OnlyClass", true⟩ rfl rfl
  · exact (c2_class_scan_amended
      (fun n => if n = "duo" then some ⟨[], [⟨"A", true⟩, ⟨"B", true⟩]⟩ else none)
      "m3" "duo" false ⟨[], [⟨"A", true⟩, ⟨"B", true⟩]⟩ (by decide) (by decide)
      (by decide)).2 (by decide)

/-- C10.  The two input shapes of `load` treat a missing manifest
asymmetrically: an in-memory file map without the
`MAR-INF/MANIFEST.json` key fails immediately with a `KeyError`, while a
filesystem directory without that file proceeds with `manifest = None`
and still returns a `Service`. -/
theorem c10_manifest_asymmetry
    (env : String → Option PyModule) (model_name handler : String)
    (files : List String) (m : PyModule)
    (habsent : "MAR-INF/MANIFEST.json" ∉ files)
    (henv : env (module_name_of handler) = some m)
    (hnoentry : entry_name_of handler = none)
    (hhandle : "handle" ∈ m.attrs) :
    TsModelLoader.load env model_name (.dict files) handler none =
      .error (.keyError "MAR-INF/MANIFEST.json") ∧
    TsModelLoader.load env model_name (.fs false) handler none =
      .ok ⟨model_name, none, .func "handle"⟩ := by
  constructor
  · simp [TsModelLoader.load, manifest_of, habsent, bind, Except.bind]
  · simp [TsModelLoader.load, manifest_of, load_module, henv, hnoentry, hhandle,
      bind, Except.bind]

/-- C10, witness at concrete inputs. -/
theorem c10_manifest_asymmetry_witness :
    TsModelLoader.load c2Env "m1" (.dict ["mymod"]) "mymod" none =
      .error (.keyError "MAR-INF/MANIFEST.json") ∧
    TsModelLoader.load c2Env "m1" (.fs false) "mymod" none =
      .ok ⟨"m1", none, .func "handle"⟩ :=
  c10_manifest_asymmetry c2Env "m1" "mymod" ["mymod"] c2Module
    (by decide) (by decide) (by decide) (by decide)

/-- C1, counterexample.  The claim says an out-of-memory Load yields a 507
response *and the worker remains viable and continues serving*.  On the
code, `handle_connection` sends the 507 response and then hits
`if code != 200: raise RuntimeError(...)` (lines 212-213), which includes
507: the loop raises and the process terminates instead of continuing. -/
theorem c1_oom_load_raises_counterexample :
    handle_connection none [.L .memoryError] =
      ([.loadResp 507 "System out of memory"],
        .raised (.runtimeError 507 "System out of memory")) ∧
    ConnExit.raised (.runtimeError 507 "System out of memory") ≠
      ConnExit.inputExhausted := by
  constructor
  · rfl
  · intro h
    exact ConnExit.noConfusion h

/-- C1, amended.  A successful Load responds 200 and the loop continues
with the new service; an out-of-memory Load responds 507 and then the
engine raises (507 is fatal like every non-200 code); any other exception
in `load_model` propagates with no response written at all. -/
theorem c1_load_response_dispatch (service : Option RunningService)
    (rest : List Cmd) (svc : RunningService) (name : String) :
    handle_connection service (.L (.ok svc name) :: rest) =
      (.loadResp 200 ("loaded model " ++ name) ::
        (handle_connection (some svc) rest).1,
        (handle_connection (some svc) rest).2) ∧
    handle_connection service (.L .memoryError :: rest) =
      ([.loadResp 507 "System out of memory"],
        .raised (.runtimeError 507 "System out of memory")) ∧
    handle_connection service (.L .otherException :: rest) =
      ([], .raised .uncaught) := by
  refine ⟨?_, rfl, rfl⟩
  simp [handle_connection, load_model]

/-- C9.  A Predict command arriving before any successful Load dispatches
`predict` on `service = None`: no response bytes are written and the
resulting exception exits the serving loop. -/
theorem c9_predict_before_load_raises (payload : List (Fin 256))
    (rest : List Cmd) :
    handle_connection none (.I payload :: rest) =
      ([], .raised .attributeError) := by
  rfl

/-- String append is left-cancellative (via the underlying char lists). -/
theorem string_append_left_cancel {d x y : String} (h : d ++ x = d ++ y) :
    x = y := by
  apply String.ext
  have h' := congrArg String.data h
  simp only [String.data_append] at h'
  exact List.append_cancel_left h'

/-- String append is right-cancellative (via the underlying char lists). -/
theorem string_append_right_cancel {e x y : String} (h : x ++ e = y ++ e) :
    x = y := by
  apply String.ext
  have h' := congrArg String.data h
  simp only [String.data_append] at h'
  exact List.append_cancel_right h'

/-- A string whose head matches the model-name pattern, extended on the
right, never starts with the path separator. -/
theorem starts_with_slash_eq_false_of_ident (n e : String)
    (hn : check_model_name n = true) :
    starts_with_slash (n ++ e) = false := by
  unfold check_model_name at hn
  unfold starts_with_slash
  cases hd : n.data with
  | nil => rw [hd] at hn; simp at hn
  | cons c cs =>
    rw [hd] at hn
    simp only [Bool.and_eq_true] at hn
    have hhead : is_ident_head c = true := hn.1
    have : (n ++ e).data = c :: (cs ++ e.data) := by
      simp [String.data_append, hd]
    rw [this]
    simp only [beq_eq_false_iff_ne, ne_eq]
    intro hc
    rw [hc] at hhead
    simp [is_ident_head, Char.isAlpha, Char.isUpper, Char.isLower,
      Char.isDigit] at hhead

/-- `path_join` with a fixed base is injective on relative second
arguments. -/
theorem path_join_right_inj {d x y : String}
    (hx : starts_with_slash x = false) (hy : starts_with_slash y = false)
    (h : path_join d x = path_join d y) : x = y := by
  unfold path_join at h
  rw [hx, hy] at h
  simp only [Bool.false_eq_true, if_false] at h
  by_cases hc : (d.data.isEmpty || ends_with_slash d) = true
  · rw [if_pos hc, if_pos hc] at h
    exact string_append_left_cancel h
  · rw [if_neg hc, if_neg hc] at h
    have h1 : (d ++ "/") ++ x = (d ++ "/") ++ y := by
      apply String.ext
      have h' := congrArg String.data h
      simp only [String.data_append, List.append_assoc] at h' ⊢
      exact h'
    exact string_append_left_cancel h1

end PytorchServe

namespace PytorchServe

/-- C6, counterexample.  For the format tag `"zip"` (any tag outside the
three dictionary keys), `archiving_options.get` returns `None`, and
Python's `"{}{}".format` renders it as the literal string `"None"`: the
resulting path is `/tmp/mNone`, not the `/tmp/m.mar` the claim's `ext`
map (default → `.mar`) requires. -/
theorem c6_unknown_format_counterexample :
    get_archive_export_path "/tmp" "m" "zip" = "/tmp/mNone" ∧
    get_archive_export_path "/tmp" "m" "zip" ≠
      path_join "/tmp" ("m" ++ specExt "zip") := by
  constructor
  · rfl
  · decide

/-- C6, amended.  `get_archive_export_path` deterministically returns
`os.path.join(exportDir, modelName ++ ext(format))` where `ext` maps
`tgz → ".tar.gz"`, `no-archive → ""`, `default → ".mar"`, and renders any
other tag as the string `"None"`. -/
theorem c6_export_path_amended (d n fmt : String) :
    get_archive_export_path d n "tgz" = path_join d (n ++ ".tar.gz") ∧
    get_archive_export_path d n "no-archive" = path_join d (n ++ "") ∧
    get_archive_export_path d n "default" = path_join d (n ++ ".mar") ∧
    (fmt ≠ "tgz" → fmt ≠ "no-archive" → fmt ≠ "default" →
      get_archive_export_path d n fmt = path_join d (n ++ "None")) := by
  refine ⟨rfl, rfl, rfl, ?_⟩
  intro h1 h2 h3
  simp [get_archive_export_path, archiving_options, py_format_opt, h1, h2, h3]

/-- C6, witness for the amended theorem at concrete inputs. -/
theorem c6_export_path_amended_witness :
    get_archive_export_path "/tmp" "m" "tgz" = path_join "/tmp" ("m" ++ ".tar.gz") ∧
    get_archive_export_path "/tmp" "m" "no-archive" = path_join "/tmp" ("m" ++ "") ∧
    get_archive_export_path "/tmp" "m" "default" = path_join "/tmp" ("m" ++ ".mar") ∧
    get_archive_export_path "/tmp" "m" "zip" = path_join "/tmp" ("m" ++ "None") := by
  have h := c6_export_path_amended "/tmp" "m" "zip"
  exact ⟨h.1, h.2.1, h.2.2.1, h.2.2.2 (by decide) (by decide) (by decide)⟩

/-- C7, counterexample.  The model names `m.tar.gz` and `m` both match the
identifier pattern, the pairs `(m.tar.gz, no-archive)` and `(m, tgz)` are
distinct, yet both resolve to `/tmp/m.tar.gz`. -/
theorem c7_injectivity_counterexample :
    check_model_name "m.tar.gz" = true ∧
    check_model_name "m" = true ∧
    ¬("m.tar.gz" = "m" ∧ "no-archive" = "tgz") ∧
    get_archive_export_path "/tmp" "m.tar.gz" "no-archive" =
      get_archive_export_path "/tmp" "m" "tgz" := by
  refine ⟨by decide, by decide, by decide, rfl⟩

/-- C7, amended.  For a fixed export directory, `get_archive_export_path`
is injective in the model name for each fixed format tag; and on model
names that additionally contain no `.` character, with format tags
restricted to the recognized set `{tgz, no-archive, default}`, distinct
(name, format) pairs always yield distinct paths. -/
theorem c7_export_path_injective_amended (d : String) :
    (∀ n₁ n₂ fmt, check_model_name n₁ = true → check_model_name n₂ = true →
      get_archive_export_path d n₁ fmt = get_archive_export_path d n₂ fmt →
      n₁ = n₂) ∧
    (∀ n₁ n₂ f₁ f₂, check_model_name n₁ = true → check_model_name n₂ = true →
      ('.' ∉ n₁.data) → ('.' ∉ n₂.data) →
      f₁ ∈ ["tgz", "no-archive", "default"] →
      f₂ ∈ ["tgz", "no-archive", "default"] →
      get_archive_export_path d n₁ f₁ = get_archive_export_path d n₂ f₂ →
      n₁ = n₂ ∧ f₁ = f₂) := by
  have names : ∀ n₁ n₂ e₁ e₂ : String, check_model_name n₁ = true →
      check_model_name n₂ = true →
      get_archive_export_path d n₁ e₁ = get_archive_export_path d n₂ e₂ →
      n₁ ++ py_format_opt (archiving_options e₁) =
        n₂ ++ py_format_opt (archiving_options e₂) := by
    intro n₁ n₂ e₁ e₂ h₁ h₂ h
    exact path_join_right_inj
      (starts_with_slash_eq_false_of_ident n₁ _ h₁)
      (starts_with_slash_eq_false_of_ident n₂ _ h₂) h
  constructor
  · intro n₁ n₂ fmt h₁ h₂ h
    exact string_append_right_cancel (names n₁ n₂ fmt fmt h₁ h₂ h)
  · intro n₁ n₂ f₁ f₂ h₁ h₂ hd₁ hd₂ hf₁ hf₂ h
    have hx := names n₁ n₂ f₁ f₂ h₁ h₂ h
    have hlist : n₁.data ++ (py_format_opt (archiving_options f₁)).data =
        n₂.data ++ (py_format_opt (archiving_options f₂)).data := by
      have := congrArg String.data hx
      simpa [String.data_append] using this
    simp only [List.mem_cons, List.mem_singleton, List.not_mem_nil,
      or_false] at hf₁ hf₂
    have dotmem₁ : ¬ (n₁.data = n₂.data ++ ('.' :: "mar".data)) := by
      intro hcontra
      exact hd₁ (hcontra ▸ List.mem_append_right _ (List.mem_cons_self _ _))
    have dotmem₂ : ¬ (n₂.data = n₁.data ++ ('.' :: "mar".data)) := by
      intro hcontra
      exact hd₂ (hcontra ▸ List.mem_append_right _ (List.mem_cons_self _ _))
    have dottar₁ : ¬ (n₁.data = n₂.data ++ ('.' :: "tar.gz".data)) := by
      intro hcontra
      exact hd₁ (hcontra ▸ List.mem_append_right _ (List.mem_cons_self _ _))
    have dottar₂ : ¬ (n₂.data = n₁.data ++ ('.' :: "tar.gz".data)) := by
      intro hcontra
      exact hd₂ (hcontra ▸ List.mem_append_right _ (List.mem_cons_self _ _))
    have lastchar : ∀ l₁ l₂ : List Char,
        l₁ ++ ".tar.gz".data = l₂ ++ ".mar".data → False := by
      intro l₁ l₂ hc
      have := congrArg List.getLast? hc
      simp [List.getLast?_append] at this
    rcases hf₁ with rfl | rfl | rfl <;> rcases hf₂ with rfl | rfl | rfl <;>
      simp only [archiving_options, py_format_opt] at hlist <;>
      norm_num at hlist
    · exact ⟨string_append_right_cancel (names n₁ n₂ _ _ h₁ h₂ h), rfl⟩
    · exact absurd (by simpa using hlist.symm) dottar₂
    · exact absurd hlist (lastchar _ _)
    · exact absurd (by simpa using hlist) dottar₁
    · exact ⟨string_append_right_cancel (names n₁ n₂ _ _ h₁ h₂ h), rfl⟩
    · exact absurd (by simpa using hlist) dotmem₁
    · exact absurd hlist.symm (lastchar _ _)
    · exact absurd (by simpa using hlist.symm) dotmem₂
    · exact ⟨string_append_right_cancel (names n₁ n₂ _ _ h₁ h₂ h), rfl⟩

/-- C8.  The `encrypted_files` branch of `copy_artifacts` on the example
filesystem: an existing single file is copied into the encrypted staging
subdirectory and a path that is neither file nor directory raises the
invalid-artifact error, as the claim states; but an existing directory,
instead of having its contents merged, hits the misspelled variable
`encrpyted_path` (lines 188 and 191) and raises `NameError`. -/
theorem c8_encrypted_dir_name_error :
    copy_encrypted_files c8Fs "/tmp/m" "weights.bin" =
      .ok [.copyFileToEncrypted "weights.bin"] ∧
    copy_encrypted_files c8Fs "/tmp/m" "extra_dir" = .error .nameError ∧
    copy_encrypted_files c8Fs "/tmp/m" "missing.txt" =
      .error (.invalidArtifact "missing.txt") := by
  refine ⟨rfl, rfl, rfl⟩

/-- C5.  Requesting whole-archive encryption together with the
`no-archive` (directory) format makes `archive` write into an in-memory
buffer and then apply `os.path.join` to that buffer inside the
no-archive branch, raising `TypeError` before any file is copied or
written: the call fails and no artifact, encrypted or not, is
produced. -/
theorem c5_encrypt_no_archive_rejected
    (export_file model_name model_path : String)
    (rel_files : List String) (hk : Bool) :
    ModelExportUtils.archive export_file model_name model_path rel_files
      "no-archive" true hk = .error .typeError := by
  cases rel_files with
  | nil => rfl
  | cons f fs => rfl

/-- C5, witness at concrete inputs. -/
theorem c5_encrypt_no_archive_rejected_witness :
    ModelExportUtils.archive "/tmp" "m" "/stage/m" ["weights.bin"]
      "no-archive" true true = .error .typeError :=
  c5_encrypt_no_archive_rejected "/tmp" "m" "/stage/m" ["weights.bin"] true

/-- C4, counterexample.  A reachable frontend that answers 500 on both
the HTTP call and the HTTPS fallback makes the registration loop `break`
with zero wait — `run_server` then proceeds to `accept` — although
registration has not succeeded (500 is not a 2xx status): only a raised
`ConnectionError` retries; a completed non-2xx response does not. -/
theorem c4_non2xx_still_accepts_counterexample :
    register_loop [⟨.status 500, .status 500⟩] = some (0, 500) ∧
    ¬(200 ≤ 500 ∧ (500 : Nat) < 300) := by
  exact ⟨rfl, by decide⟩

/-- C4, amended.  If every attempt in the trace raises `ConnectionError`
(the endpoint is unreachable), the loop never exits — the worker never
reaches `accept` — and each failed attempt sleeps 30 s; whenever the loop
does exit, the exiting attempt is exactly the first one that completed
without a `ConnectionError` (whatever its status code), and the total
wait is 30 s for each earlier attempt. -/
theorem c4_registration_backoff_amended :
    (∀ trace : List RegAttempt, (∀ a ∈ trace, attempt_retries a = true) →
      register_loop trace = none) ∧
    (∀ (trace : List RegAttempt) (w s : Nat),
      register_loop trace = some (w, s) →
      ∃ pre a post, trace = pre ++ a :: post ∧
        (∀ b ∈ pre, attempt_retries b = true) ∧
        attempt_retries a = false ∧
        attempt_exit_status a = some s ∧
        w = 30 * pre.length) := by
  constructor
  · intro trace
    induction trace with
    | nil => intro _; rfl
    | cons a rest IH =>
      intro h
      have ha := h a (List.mem_cons_self a rest)
      have hrest := IH (fun b hb => h b (List.mem_cons_of_mem _ hb))
      simp only [register_loop]
      cases hhttp : a.http with
      | connErr => simp [hrest]
      | status s =>
        simp only [attempt_retries, hhttp] at ha
        by_cases hs : (s < 200 || 300 ≤ s) = true
        · rw [if_pos hs] at ha
          cases hhttps : a.https with
          | connErr => simp [hs, hhttps, hrest]
          | status s2 => rw [hhttps] at ha; exact absurd ha (by simp)
        · rw [if_neg hs] at ha; exact absurd ha (by simp)
  · intro trace
    induction trace with
    | nil => intro w s h; exact absurd h (by simp [register_loop])
    | cons a rest IH =>
      intro w s h
      obtain ⟨ahttp, ahttps⟩ := a
      cases ahttp with
      | connErr =>
        simp only [register_loop] at h
        cases hr : register_loop rest with
        | none => rw [hr] at h; exact absurd h (by simp)
        | some r =>
          rw [hr] at h
          simp only [Option.map_some', Option.some_inj, Prod.mk.injEq] at h
          obtain ⟨hw2, hs2⟩ := h
          obtain ⟨pre, b, post, heq, hpre, hb, hexit, hw⟩ :=
            IH r.1 r.2 (by rw [hr])
          refine ⟨⟨.connErr, ahttps⟩ :: pre, b, post, by rw [heq]; rfl,
            ?_, hb, ?_, ?_⟩
          · intro x hx
            rcases List.mem_cons.mp hx with rfl | hx
            · simp [attempt_retries]
            · exact hpre x hx
          · rw [← hs2]; exact hexit
          · simp only [List.length_cons]
            omega
      | status s0 =>
        cases ahttps with
        | connErr =>
          simp only [register_loop] at h
          by_cases hs : (s0 < 200 || 300 ≤ s0) = true
          · rw [if_pos hs] at h
            cases hr : register_loop rest with
            | none => rw [hr] at h; exact absurd h (by simp)
            | some r =>
              rw [hr] at h
              simp only [Option.map_some', Option.some_inj, Prod.mk.injEq] at h
              obtain ⟨hw2, hs2⟩ := h
              obtain ⟨pre, b, post, heq, hpre, hb, hexit, hw⟩ :=
                IH r.1 r.2 (by rw [hr])
              refine ⟨⟨.status s0, .connErr⟩ :: pre, b, post,
                by rw [heq]; rfl, ?_, hb, ?_, ?_⟩
              · intro x hx
                rcases List.mem_cons.mp hx with rfl | hx
                · simp [attempt_retries, hs]
                · exact hpre x hx
              · rw [← hs2]; exact hexit
              · simp only [List.length_cons]
                omega
          · rw [if_neg hs] at h
            simp only [Option.some_inj, Prod.mk.injEq] at h
            refine ⟨[], ⟨.status s0, .connErr⟩, rest, rfl, by simp,
              ?_, ?_, by simp [← h.1]⟩
            · simp [attempt_retries, hs]
            · simp only [attempt_exit_status]
              rw [if_neg hs]
              simp [h.2]
        | status s2 =>
          simp only [register_loop] at h
          by_cases hs : (s0 < 200 || 300 ≤ s0) = true
          · rw [if_pos hs] at h
            simp only [Option.some_inj, Prod.mk.injEq] at h
            refine ⟨[], ⟨.status s0, .status s2⟩, rest, rfl, by simp,
              ?_, ?_, by simp [← h.1]⟩
            · simp [attempt_retries, hs]
            · simp [attempt_exit_status, hs, h.2]
          · rw [if_neg hs] at h
            simp only [Option.some_inj, Prod.mk.injEq] at h
            refine ⟨[], ⟨.status s0, .status s2⟩, rest, rfl, by simp,
              ?_, ?_, by simp [← h.1]⟩
            · simp [attempt_retries, hs]
            · simp only [attempt_exit_status]
              rw [if_neg hs]
              simp [h.2]

/-- C4, witness for the amended theorem at concrete inputs: a trace of
two unreachable attempts never exits, and a trace whose second attempt
completes exits after one 30-second sleep. -/
theorem c4_registration_backoff_amended_witness :
    register_loop [⟨.connErr, .connErr⟩, ⟨.connErr, .connErr⟩] = none ∧
    (∃ pre a post,
      ([⟨RegOutcome.connErr, RegOutcome.connErr⟩,
        ⟨RegOutcome.status 204, RegOutcome.status 0⟩] : List RegAttempt) =
        pre ++ a :: post ∧
      (∀ b ∈ pre, attempt_retries b = true) ∧
      attempt_retries a = false ∧
      attempt_exit_status a = some 204 ∧
      30 = 30 * pre.length) := by
  constructor
  · exact c4_registration_backoff_amended.1 _ (by decide)
  · exact c4_registration_backoff_amended.2 _ 30 204 rfl

/-- The ECB fuel argument is irrelevant once it bounds the input
length. -/
theorem ecbAux_fuel_irrel (f : List (Fin 256) → List (Fin 256)) :
    ∀ (m n : Nat) (l : List (Fin 256)), l.length ≤ m → l.length ≤ n →
      ecbAux f m l = ecbAux f n l := by
  intro m
  induction m with
  | zero =>
    intro n l hm _
    have hl : l = [] := List.length_eq_zero.mp (Nat.le_zero.mp hm)
    subst hl
    cases n <;> rfl
  | succ m IH =>
    intro n l hm hn
    cases l with
    | nil => cases n <;> rfl
    | cons c cs =>
      cases n with
      | zero => simp at hn
      | succ n =>
        simp only [List.length_cons] at hm hn
        simp only [ecbAux]
        congr 1
        apply IH
        · simp only [List.length_drop, List.length_cons]; omega
        · simp only [List.length_drop, List.length_cons]; omega

/-- ECB distributes over a leading full block. -/
theorem ecb_append16 (f : List (Fin 256) → List (Fin 256))
    (a b : List (Fin 256)) (ha : a.length = 16) :
    ecb f (a ++ b) = f a ++ ecb f b := by
  cases a with
  | nil => simp at ha
  | cons c cs =>
    simp only [ecb]
    have hlen : ((c :: cs) ++ b).length = 16 + b.length := by
      simp only [List.length_append, ha]
    rw [hlen, show 16 + b.length = (15 + b.length) + 1 from by omega]
    show f (((c :: cs) ++ b).take 16) ++
        ecbAux f (15 + b.length) (((c :: cs) ++ b).drop 16) = _
    rw [List.take_left' ha, List.drop_left' ha]
    congr 1
    exact ecbAux_fuel_irrel f _ _ b (by omega) (Nat.le_refl _)

/-- Decrypting block-by-block undoes encrypting block-by-block on inputs
whose length is a multiple of the block size, provided the block
functions invert each other on 16-byte blocks. -/
theorem ecb_ecb_inverse (e d : List (Fin 256) → List (Fin 256))
    (henc : ∀ blk, blk.length = 16 → (e blk).length = 16)
    (hinv : ∀ blk, blk.length = 16 → d (e blk) = blk) :
    ∀ l : List (Fin 256), 16 ∣ l.length → ecb d (ecb e l) = l := by
  have main : ∀ (n : Nat) (l : List (Fin 256)), l.length = n → 16 ∣ n →
      ecb d (ecb e l) = l := by
    intro n
    induction n using Nat.strong_induction_on with
    | _ n IH =>
      intro l hl hdvd
      cases l with
      | nil => rfl
      | cons c cs =>
        obtain ⟨k, hk⟩ := hdvd
        have hpos : 0 < (c :: cs).length := by simp
        have h16 : 16 ≤ (c :: cs).length := by omega
        have htake : ((c :: cs).take 16).length = 16 := by
          rw [List.length_take]; omega
        have hdrop : ((c :: cs).drop 16).length = (c :: cs).length - 16 :=
          List.length_drop 16 _
        have e1 : ecb e (c :: cs) =
            e ((c :: cs).take 16) ++ ecb e ((c :: cs).drop 16) := by
          conv_lhs => rw [← List.take_append_drop 16 (c :: cs)]
          exact ecb_append16 e _ _ htake
        have e2 : ecb d (ecb e (c :: cs)) =
            d (e ((c :: cs).take 16)) ++ ecb d (ecb e ((c :: cs).drop 16)) := by
          rw [e1]
          exact ecb_append16 d _ _ (henc _ htake)
        rw [e2, hinv _ htake,
          IH ((c :: cs).drop 16).length (by omega) _ rfl (by omega)]
        exact List.take_append_drop 16 (c :: cs)
  exact fun l hdvd => main l.length l rfl hdvd

/-- Length of a PKCS#7-padded byte string. -/
theorem pkcs7_pad_length (x : List (Fin 256)) :
    (pkcs7_pad x).length = x.length + (16 - x.length % 16) := by
  simp [pkcs7_pad]

/-- PKCS#7 padding always yields a multiple of the block size. -/
theorem pkcs7_pad_dvd (x : List (Fin 256)) : 16 ∣ (pkcs7_pad x).length := by
  rw [pkcs7_pad_length]
  omega

/-- PKCS#7 unpadding undoes PKCS#7 padding. -/
theorem pkcs7_unpad_pad (x : List (Fin 256)) :
    pkcs7_unpad (pkcs7_pad x) = some x := by
  have hlen : (pkcs7_pad x).length = x.length + (16 - x.length % 16) :=
    pkcs7_pad_length x
  have hgl : (pkcs7_pad x).getLast? =
      some ⟨16 - x.length % 16, by omega⟩ := by
    unfold pkcs7_pad
    rw [List.getLast?_append, List.getLast?_replicate]
    rw [if_neg (by omega)]
    rfl
  have hsub : (pkcs7_pad x).length - (16 - x.length % 16) = x.length := by
    omega
  have hdrop : (pkcs7_pad x).drop x.length =
      List.replicate (16 - x.length % 16) ⟨16 - x.length % 16, by omega⟩ := by
    unfold pkcs7_pad
    exact List.drop_left' rfl
  have htake : (pkcs7_pad x).take x.length = x := by
    unfold pkcs7_pad
    exact List.take_left' rfl
  unfold pkcs7_unpad
  rw [if_neg (by rw [hlen]; push_neg; exact ⟨by omega, by omega⟩)]
  simp only [hgl, hsub, hdrop, htake]
  rw [if_pos ?_]
  refine ⟨by omega, by omega, ?_⟩
  simp [List.all_eq_true, List.mem_replicate]

/-- C3.  For every byte string `x` whose length is not a multiple of the
16-byte AES block size, and every AES key — entering the model as its
block permutation `e` with inverse `d` — decrypting as the worker's
`load_model` does the result of encrypting as the archiver's `archive`
does yields exactly `x`; and decryption with any other key's block
function `d2` fails (the unpadder's `IntegrityError`, modelled as `none`)
exactly when the padding of the mis-decrypted bytes is malformed.  (That
a wrong AES key leaves valid padding only with low probability is a
property of AES's pseudorandomness, outside a deterministic model.) -/
theorem c3_encryption_roundtrip (e d : List (Fin 256) → List (Fin 256))
    (henc : ∀ blk, blk.length = 16 → (e blk).length = 16)
    (hinv : ∀ blk, blk.length = 16 → d (e blk) = blk)
    (x : List (Fin 256)) (hx : x.length % 16 ≠ 0) :
    worker_decrypt d (archive_encrypt e x) = some x ∧
    ∀ d2, worker_decrypt d2 (archive_encrypt e x) = none ↔
      pkcs7_unpad (ecb d2 (archive_encrypt e x)) = none := by
  refine ⟨?_, fun d2 => Iff.rfl⟩
  unfold worker_decrypt archive_encrypt
  rw [ecb_ecb_inverse e d henc hinv _ (pkcs7_pad_dvd x), pkcs7_unpad_pad]

/-- C3, witness: the identity block permutation round-trips the
one-byte string `[7]`; a block function that zeroes every block (as a
wrong key would scramble them) makes decryption fail on the same
ciphertext with the padding error. -/
theorem c3_encryption_roundtrip_witness :
    (worker_decrypt id (archive_encrypt id [(7 : Fin 256)]) =
      some [(7 : Fin 256)] ∧
    ∀ d2, worker_decrypt d2 (archive_encrypt id [(7 : Fin 256)]) = none ↔
      pkcs7_unpad (ecb d2 (archive_encrypt id [(7 : Fin 256)])) = none) ∧
    worker_decrypt (fun _ => List.replicate 16 0)
      (archive_encrypt id [(7 : Fin 256)]) = none := by
  constructor
  · exact c3_encryption_roundtrip id id (fun _ h => h) (fun _ _ => rfl)
      [(7 : Fin 256)] (by decide)
  · decide

/-- C7, witness for the amended theorem at concrete inputs. -/
theorem c7_export_path_injective_amended_witness :
    ("ab" : String) = "ab" ∧ (("ab" : String) = "ab" ∧ ("tgz" : String) = "tgz") := by
  have h := c7_export_path_injective_amended "/tmp"
  exact ⟨h.1 "ab" "ab" "default" (by decide) (by decide) rfl,
    h.2 "ab" "ab" "tgz" "tgz" (by decide) (by decide) (by decide) (by decide)
      (by decide) (by decide) rfl⟩

end PytorchServe
